import Mathlib

/-!
Shallow embedding of the pod-pruner resource-discovery-and-pruning engine
(saidsef/pod-pruner), covering:

* `utils.Contains`, `utils.GetEnv` and the Go `strings.Split` /
  `strings.TrimSpace` operations used by the core (single-character
  separators only, which is all the core uses);
* `GetContainers` / `isContainerInState` / `DeleteContainers` from
  `pruner/internal/resources/containers.go`;
* `GetJobs` / `DeleteJobs` from `pruner/internal/resources/jobs.go`;
* `handlePruning` and the per-tick namespace loop of `main` from
  `pruner/pruner.go`.

The cluster API is modelled as injected data: a listing call is answered
from a list of responses (each carrying the time the call takes and either
an error or a page of items with a has-more-pages flag), and the outcome of
a delete call is an injected predicate on the target's coordinates.  The
side effects of the engine (list calls, delete calls, metric increments)
are reified as an ordered trace of `Event`s.  A Go nil-pointer dereference
is modelled as the distinguished outcome `PrunerError.panicNilDeref`, which
aborts the surrounding cycle.  Times are natural numbers ("time units");
the pod listing carries the 30-unit `context.WithTimeout` budget of the
source, the job listing uses `context.TODO()` and hence has no budget.
-/

namespace PodPruner

/-- Splits a character list at every occurrence of the separator `sep`,
mirroring Go `strings.Split` with a one-character separator: the result is
never empty, and splitting the empty string yields `[[]]`. -/
def splitListOn (sep : Char) : List Char → List (List Char)
  | [] => [[]]
  | a :: rest =>
    match splitListOn sep rest, decide (a = sep) with
    | r, true => [] :: r
    | [], false => [[a]]
    | h :: t, false => (a :: h) :: t

/-- Go `strings.Split(s, sep)` for a one-character separator `sep` (the
core only ever splits on `","`, `"/"` and `":"`). -/
def goSplit (s : String) (sep : Char) : List String :=
  (splitListOn sep s.data).map fun l => ⟨l⟩

/-- ASCII whitespace, the fragment of Go `unicode.IsSpace` relevant to the
status tokens handled by the pruner. -/
def isSpaceChar (c : Char) : Bool :=
  c = ' ' || c = '\t' || c = '\n' || c = '\r'

/-- Drops leading whitespace characters. -/
def dropSpaces : List Char → List Char
  | [] => []
  | a :: rest => if isSpaceChar a then dropSpaces rest else a :: rest

/-- Go `strings.TrimSpace`: removes leading and trailing whitespace. -/
def trimSpace (s : String) : String :=
  ⟨dropSpaces ((dropSpaces s.data.reverse).reverse)⟩

/-- `utils.Contains`: linear scan for an exact string match. -/
def Contains : List String → String → Bool
  | [], _ => false
  | item :: rest, str => if item = str then true else Contains rest str

/-- `utils.GetEnv`: the environment is modelled as `Option String`
(`none` = variable unset); an unset variable yields the default value,
a set-but-empty variable yields `""`. -/
def GetEnv (value : Option String) (defaultValue : String) : String :=
  value.getD defaultValue

/-- `v1.ContainerStateWaiting` — only the `Reason` field is read. -/
structure ContainerStateWaiting where
  Reason : String
deriving DecidableEq, Repr

/-- `v1.ContainerStateTerminated` — only the `Reason` field is read. -/
structure ContainerStateTerminated where
  Reason : String
deriving DecidableEq, Repr

/-- `v1.ContainerState`: the waiting/terminated sub-states are pointers in
the source, hence `Option` here (`none` = nil pointer). -/
structure ContainerState where
  Waiting : Option ContainerStateWaiting := none
  Terminated : Option ContainerStateTerminated := none
deriving DecidableEq, Repr

/-- `v1.ContainerStatus` — only `Name` and `State` are read. -/
structure ContainerStatus where
  Name : String
  State : ContainerState
deriving DecidableEq, Repr

/-- A pod, restricted to the fields read by `GetContainers`:
metadata namespace/name and the container statuses. -/
structure Pod where
  Namespace : String
  Name : String
  ContainerStatuses : List ContainerStatus
deriving DecidableEq, Repr

/-- `resources.ContainerInfo` from `types.go`. -/
structure ContainerInfo where
  Namespace : String
  PodName : String
  Status : String
deriving DecidableEq, Repr

/-- `isContainerInState` from `containers.go`: the container matches if its
waiting reason or its terminated reason is in the status set.  The source
builds a hash set from the slice and tests membership; membership in that
set coincides with membership in the slice, embedded via `Contains`. -/
def isContainerInState (containerStatus : ContainerStatus) (statuses : List String) : Bool :=
  (match containerStatus.State.Waiting with
   | some w => Contains statuses w.Reason
   | none => false) ||
  (match containerStatus.State.Terminated with
   | some t => Contains statuses t.Reason
   | none => false)

/-- Outcomes of a listing other than success.  `envUnset` and
`listFailed` are errors returned to the caller; `panicNilDeref` models a
Go nil-pointer dereference (a process panic, not a returned error);
`noResponse` is a model artifact for an API that never answers the next
page request (the Go loop would block there). -/
inductive PrunerError where
  | envUnset
  | listFailed (msg : String)
  | panicNilDeref
  | noResponse
deriving DecidableEq, Repr

/-- One answer of the cluster API to a list call: either an error or a
page of items together with the flag "the continue token is non-empty". -/
inductive ListResp (α : Type) where
  | fail (msg : String)
  | page (items : List α) (hasMore : Bool)

/-- The match-and-collect loop body of `GetContainers` over one pod's
container statuses: a matching container contributes a `ContainerInfo`
whose `Status` is `containerStatus.State.Terminated.Reason` — when the
match came from the waiting sub-state and `Terminated` is nil, the source
dereferences a nil pointer, modelled as `panicNilDeref`. -/
def collectStatuses (statuses : List String) (pod : Pod) :
    List ContainerStatus → Except PrunerError (List ContainerInfo)
  | [] => .ok []
  | c :: rest =>
    if isContainerInState c statuses then
      match c.State.Terminated with
      | some t =>
        match collectStatuses statuses pod rest with
        | .error e => .error e
        | .ok cs => .ok (⟨pod.Namespace, pod.Name, t.Reason⟩ :: cs)
      | none => .error .panicNilDeref
    else collectStatuses statuses pod rest

/-- The outer pod loop of `GetContainers`: matches of each pod, in API
order, concatenated. -/
def collectPods (statuses : List String) : List Pod → Except PrunerError (List ContainerInfo)
  | [] => .ok []
  | p :: ps =>
    match collectStatuses statuses p p.ContainerStatuses with
    | .error e => .error e
    | .ok xs =>
      match collectPods statuses ps with
      | .error e => .error e
      | .ok ys => .ok (xs ++ ys)

/-- The emptiness test `len(statuses) == 0 || (len(statuses) == 1 &&
statuses[0] == "")` on the split `CONTAINER_STATUSES` value. -/
def statusesEmpty (statuses : List String) : Bool :=
  statuses.length == 0 || (statuses.length == 1 && statuses.headD "" == "")

/-- The pagination loop of `GetContainers`.  `elapsed` is the time spent
so far against the 30-unit `context.WithTimeout` budget; a call whose
completion would pass the deadline is answered with the context error by
the client.  Otherwise the page's matches are collected and, while the
continue token is non-empty, the loop issues the next request. -/
def getContainersLoop (statuses : List String) (elapsed : Nat) :
    List (Nat × ListResp Pod) → Except PrunerError (List ContainerInfo)
  | [] => .error .noResponse
  | (d, r) :: rest =>
    if 30 < elapsed + d then .error (.listFailed "context deadline exceeded")
    else
      match r with
      | .fail msg => .error (.listFailed msg)
      | .page items hasMore =>
        match collectPods statuses items with
        | .error e => .error e
        | .ok xs =>
          if hasMore then
            match getContainersLoop statuses (elapsed + d) rest with
            | .error e => .error e
            | .ok ys => .ok (xs ++ ys)
          else .ok xs

/-- `GetContainers` from `containers.go`: splits `CONTAINER_STATUSES` on
commas (an unset variable reads as `""`), errors when the result is empty,
then runs the paginated listing under the 30-unit time budget.  `resps`
is the cluster API's answer sequence for this namespace's pod list calls. -/
def getContainers (containerStatusesEnv : String) (resps : List (Nat × ListResp Pod)) :
    Except PrunerError (List ContainerInfo) :=
  let statuses := goSplit containerStatusesEnv ','
  if statusesEmpty statuses then .error .envUnset
  else getContainersLoop statuses 0 resps

/-- `batchv1.JobCondition`, restricted to the fields relevant here: the
condition type string (Go field `Type`, a Lean keyword, hence `CondType`)
and the condition status string ("True" / "False" / "Unknown").  `GetJobs`
reads only the type. -/
structure JobCondition where
  CondType : String
  Status : String
deriving DecidableEq, Repr

/-- `batchv1.JobStatus` — only the conditions are read. -/
structure JobStatus where
  Conditions : List JobCondition
deriving DecidableEq, Repr

/-- A job, restricted to the fields read by `GetJobs`. -/
structure Job where
  Namespace : String
  Name : String
  Status : JobStatus
deriving DecidableEq, Repr

/-- The descriptor `fmt.Sprintf("%s/%s: %s", job.Namespace, job.Name,
jobStatus.Type)` appended by `GetJobs` for a matching condition. -/
def jobDescriptor (job : Job) (cond : JobCondition) : String :=
  job.Namespace ++ "/" ++ job.Name ++ ": " ++ cond.CondType

/-- The per-job condition scan of `GetJobs`: one descriptor per condition
whose trimmed type string is in the status list. -/
def jobMatches (statuses : List String) (job : Job) : List String :=
  job.Status.Conditions.filterMap fun cond =>
    if Contains statuses (trimSpace cond.CondType) then some (jobDescriptor job cond) else none

/-- `GetJobs` from `jobs.go`: splits `JOB_STATUSES` (default `"Complete"`
via `GetEnv` when unset) on commas and issues a single list call with
`context.TODO()` — no time budget and no continue-token loop, so only the
first response is consumed and its has-more flag is ignored. -/
def getJobs (jobStatusesEnv : Option String) (resps : List (Nat × ListResp Job)) :
    Except PrunerError (List String) :=
  let statuses := goSplit (GetEnv jobStatusesEnv "Complete") ','
  match resps with
  | [] => .error .noResponse
  | (_, .fail msg) :: _ => .error (.listFailed msg)
  | (_, .page items _) :: _ => .ok (items.flatMap (jobMatches statuses))

/-- One observable side effect of the engine towards the cluster API or
the metrics registry, in issue order. -/
inductive Event where
  | listPods (ns : String)
  | listJobs (ns : String)
  | deletePod (ns name : String)
  | deleteJob (ns name : String)
  | inc (counter : String) (labels : List String) (amount : Nat)
deriving DecidableEq, Repr

/-- `DeleteContainers` from `containers.go`: one delete call per item on
the item's own namespace/pod name, in order; on success (decided by the
injected `outcome` predicate on the call's coordinates) the containers
counter is incremented by 1 with labels namespace and observed status, on
failure only an error is logged and no metric moves.  The loop never stops
early. -/
def deleteContainers (outcome : String → String → Bool) (containers : List ContainerInfo) :
    List Event :=
  containers.flatMap fun c =>
    Event.deletePod c.Namespace c.PodName ::
      (if outcome c.Namespace c.PodName then
        [Event.inc "containers_pruned_total" [c.Namespace, c.Status] 1]
      else [])

/-- The job-name extraction of `DeleteJobs` from a well-formed descriptor
part: everything before the first `":"`, whitespace-trimmed. -/
def jobNameOf (jobPart : String) : String :=
  trimSpace ((goSplit jobPart ':').headD "")

/-- `DeleteJobs` from `jobs.go`: each descriptor is split on `"/"`; a
descriptor not in exactly two parts is logged and skipped, otherwise a
delete call (background propagation) is issued for the extracted job name
in the given namespace.  Failures of individual delete calls only get
logged (`outcome` influences no further effect), and the loop never stops
early. -/
def deleteJobs (outcome : String → String → Bool) (ns : String) (jobs : List String) :
    List Event :=
  jobs.flatMap fun job =>
    match goSplit job '/' with
    | [_, jobPart] =>
      let jobName := jobNameOf jobPart
      let _ := outcome ns jobName
      [Event.deleteJob ns jobName]
    | _ => []

/-- A deletion batch handed to `handlePruning`: the source pairs the
`resourceType` string `"containers"` / `"jobs"` with the items fetched by
the corresponding listing, embedded here as the two constructors. -/
inductive Batch where
  | containers (items : List ContainerInfo)
  | jobs (items : List String)

/-- `len(items)` of a batch. -/
def batchLen : Batch → Nat
  | .containers items => items.length
  | .jobs items => items.length

/-- `handlePruning` from `pruner.go`: with a non-empty batch, dry-run mode
(`dryRun == "true"`) only logs the intended deletions; live mode runs the
kind's deleter and then increments the kind-specific pruned counter,
labelled by namespace, by the full batch length.  An empty batch only logs
"nothing to prune". -/
def handlePruning (batch : Batch) (ns dryRun : String) (outcome : String → String → Bool) :
    List Event :=
  if 0 < batchLen batch then
    if dryRun = "true" then []
    else
      match batch with
      | .containers items =>
        deleteContainers outcome items ++
          [Event.inc "containers_pruned_total" [ns] items.length]
      | .jobs items =>
        deleteJobs outcome ns items ++
          [Event.inc "jobs_pruned_total" [ns] items.length]
  else []

/-- The cluster API as seen by one tick: for each namespace, the answer
sequences for its pod list calls and its job list calls. -/
structure ClusterApi where
  pods : String → List (Nat × ListResp Pod)
  jobs : String → List (Nat × ListResp Job)

/-- The process configuration read from the environment at startup. -/
structure Config where
  dryRun : String
  resources : List String
  containerStatusesEnv : String
  jobStatusesEnv : Option String

/-- The body of the per-namespace loop of `main` for one namespace: the
`PODS` branch lists containers — a listing error is logged and `continue`
moves on to the next namespace, skipping this namespace's `JOBS` branch; a
panic aborts the process — otherwise `handlePruning` runs; then the
`JOBS` branch does the same with jobs (whose listing cannot panic).
Returns the event trace and whether the process panicked. -/
def runNamespace (cfg : Config) (api : ClusterApi) (outcome : String → String → Bool)
    (ns : String) : List Event × Bool :=
  if Contains cfg.resources "PODS" then
    match getContainers cfg.containerStatusesEnv (api.pods ns) with
    | .error .panicNilDeref => ([Event.listPods ns], true)
    | .error _ => ([Event.listPods ns], false)
    | .ok containers =>
      let podEvents := Event.listPods ns :: handlePruning (.containers containers) ns cfg.dryRun outcome
      if Contains cfg.resources "JOBS" then
        match getJobs cfg.jobStatusesEnv (api.jobs ns) with
        | .error _ => (podEvents ++ [Event.listJobs ns], false)
        | .ok jobs =>
          (podEvents ++ Event.listJobs ns :: handlePruning (.jobs jobs) ns cfg.dryRun outcome, false)
      else (podEvents, false)
  else
    if Contains cfg.resources "JOBS" then
      match getJobs cfg.jobStatusesEnv (api.jobs ns) with
      | .error _ => ([Event.listJobs ns], false)
      | .ok jobs =>
        (Event.listJobs ns :: handlePruning (.jobs jobs) ns cfg.dryRun outcome, false)
    else ([], false)

/-- One tick of the main loop: the namespaces are processed in order; a
panic in one namespace aborts the rest of the tick (and the process),
anything else lets the loop proceed to the next namespace. -/
def pruneCycle (cfg : Config) (api : ClusterApi) (outcome : String → String → Bool) :
    List String → List Event × Bool
  | [] => ([], false)
  | ns :: rest =>
    let r := runNamespace cfg api outcome ns
    if r.2 then (r.1, true)
    else
      let r2 := pruneCycle cfg api outcome rest
      (r.1 ++ r2.1, r2.2)

/-- Whether an event is a delete call issued to the cluster API. -/
def isDeleteEvent : Event → Bool
  | .deletePod _ _ => true
  | .deleteJob _ _ => true
  | _ => false

/-- The delete calls of a trace, in order. -/
def deleteCalls (events : List Event) : List Event :=
  events.filter isDeleteEvent

/-- Whether an event is a pod delete call. -/
def isPodDeleteEvent : Event → Bool
  | .deletePod _ _ => true
  | _ => false

/-- Total amount added to the counter named `counter` over a trace. -/
def incTotal (counter : String) : List Event → Nat
  | [] => 0
  | .inc c _ n :: rest => (if c = counter then n else 0) + incTotal counter rest
  | _ :: rest => incTotal counter rest

/-- Builds the answer sequence of a well-behaved paged API from the pages
themselves: every call is answered instantly (duration 0) with the next
page, the has-more flag set on all but the last page. -/
def mkPages : List (List Pod) → List (Nat × ListResp Pod)
  | [] => []
  | [p] => [(0, .page p false)]
  | p :: ps => (0, .page p true) :: mkPages ps

/-- Re-times an answer sequence, leaving the answers themselves alone. -/
def mapDurations (f : Nat → Nat) (resps : List (Nat × ListResp Job)) :
    List (Nat × ListResp Job) :=
  resps.map fun dr => (f dr.1, dr.2)

/-- Conditions that agree on everything `GetJobs` reads — the type string
— but may differ in their status value. -/
def CondSameType (c₁ c₂ : JobCondition) : Prop :=
  c₁.CondType = c₂.CondType

/-- Jobs that agree on namespace, name and condition types, but whose
condition statuses may differ. -/
def JobSameButCondStatus (j₁ j₂ : Job) : Prop :=
  j₁.Namespace = j₂.Namespace ∧ j₁.Name = j₂.Name ∧
    List.Forall₂ CondSameType j₁.Status.Conditions j₂.Status.Conditions

/-! ### Helper lemmas -/

/-- In dry-run mode `handlePruning` produces no effect towards the cluster
API or the metrics registry. -/
theorem handlePruning_dryRun (batch : Batch) (ns : String)
    (outcome : String → String → Bool) : handlePruning batch ns "true" outcome = [] := by
  cases batch <;> simp [handlePruning]

theorem deleteCalls_append (a b : List Event) :
    deleteCalls (a ++ b) = deleteCalls a ++ deleteCalls b := by
  simp [deleteCalls, List.filter_append]

/-- The delete calls of `DeleteContainers` are one per batch item, in
order, independently of which calls succeed. -/
theorem deleteCalls_deleteContainers (outcome : String → String → Bool)
    (containers : List ContainerInfo) :
    deleteCalls (deleteContainers outcome containers)
      = containers.map fun c => Event.deletePod c.Namespace c.PodName := by
  induction containers with
  | nil => rfl
  | cons c rest ih =>
    simp only [deleteContainers, List.flatMap_cons] at ih ⊢
    rw [deleteCalls_append, ih, List.map_cons]
    by_cases h : outcome c.Namespace c.PodName <;>
      simp [deleteCalls, List.filter, isDeleteEvent, h]

/-- The per-item effect of `DeleteJobs` on one descriptor. -/
theorem deleteJobs_cons (outcome : String → String → Bool) (ns job : String)
    (rest : List String) :
    deleteJobs outcome ns (job :: rest)
      = (match goSplit job '/' with
         | [_, jobPart] => [Event.deleteJob ns (jobNameOf jobPart)]
         | _ => []) ++ deleteJobs outcome ns rest := by
  simp only [deleteJobs, List.flatMap_cons]

/-- Every event of `DeleteJobs` is a job delete call in the given
namespace. -/
theorem deleteJobs_mem (outcome : String → String → Bool) (ns : String)
    (jobs : List String) :
    ∀ e ∈ deleteJobs outcome ns jobs, ∃ name, e = Event.deleteJob ns name := by
  induction jobs with
  | nil => intro e he; simp [deleteJobs] at he
  | cons j rest ih =>
    intro e he
    rw [deleteJobs_cons] at he
    rcases List.mem_append.mp he with h | h
    · rcases hsp : goSplit j '/' with _ | ⟨a, _ | ⟨b, _ | _⟩⟩ <;>
        rw [hsp] at h <;> simp at h
      exact ⟨jobNameOf b, h⟩
    · exact ih e h

theorem incTotal_append (counter : String) (a b : List Event) :
    incTotal counter (a ++ b) = incTotal counter a + incTotal counter b := by
  induction a with
  | nil => simp [incTotal]
  | cons e rest ih =>
    cases e <;> simp [incTotal, ih]
    omega

/-- A trace without metric events adds nothing to any counter. -/
theorem incTotal_eq_zero (counter : String) (events : List Event)
    (h : ∀ c lbl n, Event.inc c lbl n ∈ events → False) :
    incTotal counter events = 0 := by
  induction events with
  | nil => rfl
  | cons e rest ih =>
    cases e with
    | inc c lbl n => exact absurd (List.mem_cons_self _ _) (fun hm => h c lbl n hm)
    | listPods ns => exact ih fun c lbl n hm => h c lbl n (List.mem_cons_of_mem _ hm)
    | listJobs ns => exact ih fun c lbl n hm => h c lbl n (List.mem_cons_of_mem _ hm)
    | deletePod ns name => exact ih fun c lbl n hm => h c lbl n (List.mem_cons_of_mem _ hm)
    | deleteJob ns name => exact ih fun c lbl n hm => h c lbl n (List.mem_cons_of_mem _ hm)

/-- `DeleteContainers` adds to the containers counter exactly one unit per
successful delete call. -/
theorem incTotal_deleteContainers (outcome : String → String → Bool)
    (containers : List ContainerInfo) :
    incTotal "containers_pruned_total" (deleteContainers outcome containers)
      = containers.countP fun c => outcome c.Namespace c.PodName := by
  induction containers with
  | nil => rfl
  | cons c rest ih =>
    simp only [deleteContainers, List.flatMap_cons] at ih ⊢
    rw [incTotal_append, ih, List.countP_cons]
    by_cases h : outcome c.Namespace c.PodName <;> simp [incTotal, h]
    omega

/-- `DeleteJobs` touches no metric counter. -/
theorem incTotal_deleteJobs (counter : String) (outcome : String → String → Bool)
    (ns : String) (jobs : List String) :
    incTotal counter (deleteJobs outcome ns jobs) = 0 := by
  refine incTotal_eq_zero counter _ fun c lbl n hm => ?_
  rcases deleteJobs_mem outcome ns jobs _ hm with ⟨name, hname⟩
  exact Event.noConfusion hname

/-- Collecting matches over a concatenation of pod lists is collecting
over each part in turn (with the first failure winning). -/
theorem collectPods_append (statuses : List String) (a b : List Pod) :
    collectPods statuses (a ++ b)
      = match collectPods statuses a, collectPods statuses b with
        | .error e, _ => .error e
        | .ok _, .error e => .error e
        | .ok xs, .ok ys => .ok (xs ++ ys) := by
  induction a with
  | nil =>
    cases hb : collectPods statuses b <;> simp [collectPods, hb]
  | cons p ps ih =>
    cases hc : collectStatuses statuses p p.ContainerStatuses <;>
      cases hp : collectPods statuses ps <;>
        cases hb : collectPods statuses b <;>
          simp [collectPods, hc, hp, hb, ih, List.append_assoc]

/-- Over a well-behaved paged answer sequence the pagination loop of
`GetContainers` accumulates the matches of every page: the result is the
collection over the concatenation of all pages. -/
theorem getContainersLoop_mkPages (statuses : List String) (ps : List (List Pod))
    (hne : ps ≠ []) :
    getContainersLoop statuses 0 (mkPages ps) = collectPods statuses ps.flatten := by
  induction ps with
  | nil => exact absurd rfl hne
  | cons p rest ih =>
    cases rest with
    | nil =>
      cases hc : collectPods statuses p <;>
        simp [mkPages, getContainersLoop, hc]
    | cons q qs =>
      have ihq := ih (by simp)
      rw [List.flatten_cons, collectPods_append, ← ihq]
      cases hc : collectPods statuses p <;>
        cases hr : getContainersLoop statuses 0 (mkPages (q :: qs)) <;>
          simp [mkPages, getContainersLoop, hc, hr]

/-- `jobMatches` reads only the namespace, the name and the condition
types of a job. -/
theorem jobMatches_congr (statuses : List String) (j₁ j₂ : Job)
    (h : JobSameButCondStatus j₁ j₂) :
    jobMatches statuses j₁ = jobMatches statuses j₂ := by
  obtain ⟨hns, hname, hconds⟩ := h
  simp only [jobMatches, jobDescriptor]
  rw [hns, hname]
  revert hconds
  generalize j₁.Status.Conditions = l₁
  generalize j₂.Status.Conditions = l₂
  intro hconds
  induction hconds with
  | nil => rfl
  | cons hc _ ihc =>
    unfold CondSameType at hc
    simp only [List.filterMap_cons, hc, ihc]

/-- `GetJobs` yields one descriptor per condition whose trimmed type is
in the filter list. -/
theorem jobMatches_length (statuses : List String) (j : Job) :
    (jobMatches statuses j).length
      = j.Status.Conditions.countP fun c => Contains statuses (trimSpace c.CondType) := by
  unfold jobMatches
  generalize j.Status.Conditions = l
  induction l with
  | nil => rfl
  | cons c rest ih =>
    by_cases h : Contains statuses (trimSpace c.CondType) <;>
      simp [List.filterMap_cons, List.countP_cons, h, ih]

/-- The `"jobs"` branch of `handlePruning` issues no pod delete call. -/
theorem filter_podDelete_handlePruning_jobs (js : List String) (ns dryRun : String)
    (outcome : String → String → Bool) :
    List.filter isPodDeleteEvent (handlePruning (.jobs js) ns dryRun outcome) = [] := by
  unfold handlePruning
  split
  · split
    · rfl
    · rw [List.filter_append]
      have h1 : List.filter isPodDeleteEvent (deleteJobs outcome ns js) = [] := by
        rw [List.filter_eq_nil_iff]
        intro e he
        rcases deleteJobs_mem outcome ns js e he with ⟨name, rfl⟩
        simp [isPodDeleteEvent]
      simp [h1, List.filter, isPodDeleteEvent]
  · rfl

/-! ### Claims -/

/-- C1: for every deletion batch passed to `DeleteContainers` or
`DeleteJobs`, the sequence of delete calls issued is a function of the
batch alone — one call per item (per well-formed item for jobs), whatever
the outcomes of the individual calls are; in particular one item's failure
never prevents any other item's delete call, and the invocation runs to
completion. -/
theorem deleter_failure_isolation (outcomeC outcomeJ : String → String → Bool)
    (containers : List ContainerInfo) (ns : String) (jobs : List String) :
    deleteCalls (deleteContainers outcomeC containers)
        = containers.map (fun c => Event.deletePod c.Namespace c.PodName)
      ∧ deleteCalls (deleteJobs outcomeJ ns jobs)
        = jobs.flatMap (fun job =>
            match goSplit job '/' with
            | [_, jobPart] => [Event.deleteJob ns (jobNameOf jobPart)]
            | _ => []) := by
  refine ⟨deleteCalls_deleteContainers outcomeC containers, ?_⟩
  induction jobs with
  | nil => rfl
  | cons j rest ih =>
    rw [deleteJobs_cons, deleteCalls_append, ih, List.flatMap_cons]
    congr 1
    rcases goSplit j '/' with _ | ⟨a, _ | ⟨b, _ | _⟩⟩ <;> rfl

/-- C2: with `DRY_RUN = "true"` a whole tick issues no delete call to the
cluster API, whatever the configured resources, filter values, cluster
contents and namespaces are. -/
theorem dry_run_no_delete_calls (resources : List String) (containerEnv : String)
    (jobEnv : Option String) (api : ClusterApi) (outcome : String → String → Bool)
    (namespaces : List String) :
    deleteCalls
      (pruneCycle ⟨"true", resources, containerEnv, jobEnv⟩ api outcome namespaces).1
      = [] := by
  induction namespaces with
  | nil => rfl
  | cons ns rest ih =>
    have hns : deleteCalls
        (runNamespace ⟨"true", resources, containerEnv, jobEnv⟩ api outcome ns).1 = [] := by
      unfold runNamespace
      repeat' split
      all_goals
        simp [deleteCalls, List.filter, List.filter_append, isDeleteEvent, handlePruning_dryRun]
    simp only [pruneCycle]
    split
    · exact hns
    · rw [deleteCalls_append, hns, ih]
      rfl

/-- C3 (code bug): a container in a waiting sub-state whose reason is in
the filter set is a match for `isContainerInState`, yet `GetContainers`
then reads `containerStatus.State.Terminated.Reason` with `Terminated`
nil and panics instead of returning a descriptor with the waiting
reason. -/
theorem getContainers_waiting_match_panics :
    isContainerInState ⟨"app", ⟨some ⟨"CrashLoopBackOff"⟩, none⟩⟩ ["CrashLoopBackOff"] = true
    ∧ getContainers "CrashLoopBackOff"
        [(0, .page [⟨"ns1", "p1", [⟨"app", ⟨some ⟨"CrashLoopBackOff"⟩, none⟩⟩]⟩] false)]
      = .error .panicNilDeref := by
  exact ⟨rfl, rfl⟩

/-- C4: with `CONTAINER_STATUSES` unset or empty (both read as `""`),
`GetContainers` returns an error for every cluster answer, and no tick
ever issues a pod delete call. -/
theorem empty_container_statuses_prunes_nothing
    (resps : List (Nat × ListResp Pod)) (dryRun : String) (resources : List String)
    (jobEnv : Option String) (api : ClusterApi) (outcome : String → String → Bool)
    (namespaces : List String) :
    getContainers "" resps = .error .envUnset
    ∧ List.filter isPodDeleteEvent
        (pruneCycle ⟨dryRun, resources, "", jobEnv⟩ api outcome namespaces).1 = [] := by
  refine ⟨rfl, ?_⟩
  induction namespaces with
  | nil => rfl
  | cons ns rest ih =>
    have hns : List.filter isPodDeleteEvent
        (runNamespace ⟨dryRun, resources, "", jobEnv⟩ api outcome ns).1 = [] := by
      unfold runNamespace
      split
      · simp [show getContainers "" (api.pods ns) = .error .envUnset from rfl,
          List.filter, isPodDeleteEvent]
      · split
        · cases hg : getJobs jobEnv (api.jobs ns) <;>
            simp [hg, List.filter, isPodDeleteEvent, filter_podDelete_handlePruning_jobs]
        · rfl
    simp only [pruneCycle]
    split
    · exact hns
    · rw [List.filter_append, hns, ih]
      rfl

/-- C5: over a single-page job listing, `GetJobs` produces for each job
exactly as many descriptors as the job has conditions whose trimmed type
string is in the filter set — one per matching condition, duplicates
included. -/
theorem getJobs_descriptor_count (jobEnv : Option String) (d : Nat) (js : List Job) :
    (getJobs jobEnv [(d, .page js false)]).map List.length
      = .ok ((js.map fun job =>
          job.Status.Conditions.countP fun c =>
            Contains (goSplit (GetEnv jobEnv "Complete") ',') (trimSpace c.CondType)).sum) := by
  simp only [getJobs, Except.map]
  congr 1
  induction js with
  | nil => rfl
  | cons j rest ih =>
    simp [List.flatMap_cons, ih, jobMatches_length]

/-- C6 counterexample: over a two-page job listing with one match on each
page, `GetJobs` returns only the first page's match — the second page's
descriptor is missing, so job listing does not follow continuation
tokens. -/
theorem getJobs_pagination_counterexample :
    getJobs none
        [(0, .page [⟨"ns1", "j1", ⟨[⟨"Complete", "True"⟩]⟩⟩] true),
         (0, .page [⟨"ns1", "j2", ⟨[⟨"Complete", "True"⟩]⟩⟩] false)]
      = .ok ["ns1/j1: Complete"]
    ∧ "ns1/j2: Complete" ∉ ["ns1/j1: Complete"] :=
  ⟨rfl, by decide⟩

/-- C6 amended: pod listing follows continuation tokens until exhausted
and returns the accumulated matches of all pages; job listing consumes
only the first response and returns that page's matches, ignoring the
continue token. -/
theorem pagination_pods_follow_continuation
    (containerEnv : String) (ps : List (List Pod)) (jobEnv : Option String)
    (d : Nat) (items : List Job) (hasMore : Bool) (rest : List (Nat × ListResp Job))
    (hEnv : statusesEmpty (goSplit containerEnv ',') = false) (hne : ps ≠ []) :
    getContainers containerEnv (mkPages ps)
        = collectPods (goSplit containerEnv ',') ps.flatten
    ∧ getJobs jobEnv ((d, .page items hasMore) :: rest)
        = .ok (items.flatMap (jobMatches (goSplit (GetEnv jobEnv "Complete") ','))) := by
  constructor
  · simp only [getContainers, hEnv, Bool.false_eq_true, if_false]
    exact getContainersLoop_mkPages _ ps hne
  · rfl

theorem pagination_pods_follow_continuation_witness :
    (statusesEmpty (goSplit "Error" ',') = false
     ∧ ([[⟨"ns1", "p1", []⟩], [⟨"ns1", "p2", []⟩]] : List (List Pod)) ≠ [])
    ∧ (getContainers "Error" (mkPages [[⟨"ns1", "p1", []⟩], [⟨"ns1", "p2", []⟩]])
          = collectPods (goSplit "Error" ',')
              ([[⟨"ns1", "p1", []⟩], [⟨"ns1", "p2", []⟩]] : List (List Pod)).flatten
       ∧ getJobs none ((0, .page [⟨"ns1", "j1", ⟨[⟨"Complete", "True"⟩]⟩⟩] true) ::
              [(0, .page [⟨"ns1", "j2", ⟨[⟨"Complete", "True"⟩]⟩⟩] false)])
          = .ok ([⟨"ns1", "j1", ⟨[⟨"Complete", "True"⟩]⟩⟩].flatMap
              (jobMatches (goSplit (GetEnv none "Complete") ',')))) :=
  ⟨⟨by decide, by decide⟩,
    pagination_pods_follow_continuation "Error" [[⟨"ns1", "p1", []⟩], [⟨"ns1", "p2", []⟩]]
      none 0 [⟨"ns1", "j1", ⟨[⟨"Complete", "True"⟩]⟩⟩] true
      [(0, .page [⟨"ns1", "j2", ⟨[⟨"Complete", "True"⟩]⟩⟩] false)] (by decide) (by decide)⟩

/-- C7 counterexample: a job list call that takes 31 time units — past
the claimed 30-unit ceiling — still succeeds instead of failing with a
timeout error: job listing runs under `context.TODO()` with no time
budget. -/
theorem getJobs_no_time_budget_counterexample :
    30 < 31
    ∧ getJobs none [(31, .page [⟨"ns1", "j1", ⟨[⟨"Complete", "True"⟩]⟩⟩] false)]
      = .ok ["ns1/j1: Complete"] :=
  ⟨by decide, rfl⟩

/-- C7 amended: only the pod listing carries the 30-unit budget — any
list call in its pagination loop that would end past the deadline makes
the listing fail with the context timeout error — while the job listing's
result does not depend on how long the cluster API takes at all. -/
theorem listing_time_budget_pods_only
    (statuses : List String) (elapsed d : Nat) (r : ListResp Pod)
    (rest : List (Nat × ListResp Pod)) (jobEnv : Option String) (f : Nat → Nat)
    (resps : List (Nat × ListResp Job)) (h : 30 < elapsed + d) :
    getContainersLoop statuses elapsed ((d, r) :: rest)
        = .error (.listFailed "context deadline exceeded")
    ∧ getJobs jobEnv (mapDurations f resps) = getJobs jobEnv resps := by
  constructor
  · unfold getContainersLoop
    simp [h]
  · cases resps with
    | nil => rfl
    | cons dr rest2 =>
      rcases dr with ⟨d0, r0⟩
      cases r0 <;> rfl

theorem listing_time_budget_pods_only_witness :
    30 < 0 + 31
    ∧ (getContainersLoop ["Error"] 0 [(31, .page [] false)]
          = .error (.listFailed "context deadline exceeded")
       ∧ getJobs none (mapDurations (fun d => d + 5) [(0, .page [] false)])
          = getJobs none [(0, .page [] false)]) :=
  ⟨by decide,
    listing_time_budget_pods_only ["Error"] 0 31 (.page [] false) [] none
      (fun d => d + 5) [(0, .page [] false)] (by decide)⟩

/-- C8 counterexample: `RESOURCES` enables both kinds, pod listing fails
for `"ns1"`, yet the tick's trace shows no job list call for `"ns1"` —
the `continue` in the pods branch skips the jobs branch of the same
namespace (while `"ns2"` is still processed). -/
theorem pods_failure_skips_jobs_counterexample :
    getContainers "Error" [(0, ListResp.fail "boom")] = .error (.listFailed "boom")
    ∧ (pruneCycle ⟨"false", ["PODS", "JOBS"], "Error", none⟩
          ⟨fun _ => [(0, .fail "boom")],
           fun _ => [(0, .page [⟨"ns1", "j1", ⟨[⟨"Complete", "True"⟩]⟩⟩] false)]⟩
          (fun _ _ => true) ["ns1", "ns2"]).1
        = [.listPods "ns1", .listPods "ns2"]
    ∧ Event.listJobs "ns1"
        ∉ (pruneCycle ⟨"false", ["PODS", "JOBS"], "Error", none⟩
            ⟨fun _ => [(0, .fail "boom")],
             fun _ => [(0, .page [⟨"ns1", "j1", ⟨[⟨"Complete", "True"⟩]⟩⟩] false)]⟩
            (fun _ _ => true) ["ns1", "ns2"]).1 :=
  ⟨rfl, rfl, by decide⟩

/-- C8 amended: a pod listing failure (other than a panic) for one
namespace is non-fatal — the remaining namespaces of the tick are
processed exactly as before — but it skips the entire remainder of that
namespace for the tick, so in particular that namespace's jobs branch
does not run. -/
theorem listing_failure_scope (cfg : Config) (api : ClusterApi)
    (outcome : String → String → Bool) (ns : String) (rest : List String)
    (e : PrunerError) (hp : Contains cfg.resources "PODS" = true)
    (he : getContainers cfg.containerStatusesEnv (api.pods ns) = .error e)
    (hne : e ≠ .panicNilDeref) :
    pruneCycle cfg api outcome (ns :: rest)
      = (Event.listPods ns :: (pruneCycle cfg api outcome rest).1,
         (pruneCycle cfg api outcome rest).2) := by
  have hrun : runNamespace cfg api outcome ns = ([Event.listPods ns], false) := by
    cases e with
    | panicNilDeref => exact absurd rfl hne
    | envUnset => simp [runNamespace, hp, he]
    | listFailed msg => simp [runNamespace, hp, he]
    | noResponse => simp [runNamespace, hp, he]
  simp [pruneCycle, hrun]

theorem listing_failure_scope_witness :
    (Contains ["PODS", "JOBS"] "PODS" = true
     ∧ getContainers "Error" [(0, ListResp.fail "boom")] = .error (.listFailed "boom")
     ∧ (PrunerError.listFailed "boom") ≠ .panicNilDeref)
    ∧ pruneCycle ⟨"false", ["PODS", "JOBS"], "Error", none⟩
        ⟨fun _ => [(0, .fail "boom")], fun _ => [(0, .page [] false)]⟩
        (fun _ _ => true) ["nsA", "nsB"]
      = (Event.listPods "nsA" ::
          (pruneCycle ⟨"false", ["PODS", "JOBS"], "Error", none⟩
            ⟨fun _ => [(0, .fail "boom")], fun _ => [(0, .page [] false)]⟩
            (fun _ _ => true) ["nsB"]).1,
         (pruneCycle ⟨"false", ["PODS", "JOBS"], "Error", none⟩
            ⟨fun _ => [(0, .fail "boom")], fun _ => [(0, .page [] false)]⟩
            (fun _ _ => true) ["nsB"]).2) :=
  ⟨⟨rfl, rfl, by decide⟩,
    listing_failure_scope ⟨"false", ["PODS", "JOBS"], "Error", none⟩
      ⟨fun _ => [(0, .fail "boom")], fun _ => [(0, .page [] false)]⟩
      (fun _ _ => true) "nsA" ["nsB"] (.listFailed "boom") rfl rfl (by decide)⟩

/-- C9 counterexample: a live-mode containers batch of one item whose
delete call fails still moves the containers counter by 1 — the batch
level increment of `handlePruning` counts failed items too, so the
counter increase does not equal the number of successful deletes (0). -/
theorem metrics_batch_increment_counterexample :
    incTotal "containers_pruned_total"
        (handlePruning (.containers [⟨"ns1", "p1", "Error"⟩]) "ns1" "false" (fun _ _ => false))
      = 1
    ∧ handlePruning (.containers [⟨"ns1", "p1", "Error"⟩]) "ns1" "false" (fun _ _ => false)
      = [Event.deletePod "ns1" "p1", Event.inc "containers_pruned_total" ["ns1"] 1] :=
  ⟨rfl, rfl⟩

/-- C9 amended: in live mode the containers counter grows by the number
of successful deletes (one per-item increment each, labelled namespace
and status, from `DeleteContainers`) plus the full batch length (the
unconditional batch increment of `handlePruning`); the jobs counter grows
by exactly the batch length, successes and failures alike. -/
theorem metrics_increment_amended (outcome : String → String → Bool)
    (ns dryRun : String) (containers : List ContainerInfo) (jobs : List String)
    (h : dryRun ≠ "true") :
    incTotal "containers_pruned_total"
        (handlePruning (.containers containers) ns dryRun outcome)
      = (containers.countP fun c => outcome c.Namespace c.PodName) + containers.length
    ∧ incTotal "jobs_pruned_total" (handlePruning (.jobs jobs) ns dryRun outcome)
      = jobs.length := by
  constructor
  · cases containers with
    | nil => simp [handlePruning, batchLen, incTotal]
    | cons c rest =>
      simp only [handlePruning, batchLen, List.length_cons]
      rw [if_pos (Nat.succ_pos _), if_neg h, incTotal_append, incTotal_deleteContainers]
      simp [incTotal]
  · cases jobs with
    | nil => simp [handlePruning, batchLen, incTotal]
    | cons j rest =>
      simp only [handlePruning, batchLen, List.length_cons]
      rw [if_pos (Nat.succ_pos _), if_neg h, incTotal_append, incTotal_deleteJobs]
      simp [incTotal]

theorem metrics_increment_amended_witness :
    ("false" : String) ≠ "true"
    ∧ (incTotal "containers_pruned_total"
          (handlePruning (.containers [⟨"nsX", "pX", "Error"⟩]) "nsX" "false"
            (fun _ _ => true))
        = (([⟨"nsX", "pX", "Error"⟩] : List ContainerInfo).countP
            fun c => (fun _ _ => true : String → String → Bool) c.Namespace c.PodName)
            + ([⟨"nsX", "pX", "Error"⟩] : List ContainerInfo).length
       ∧ incTotal "jobs_pruned_total"
          (handlePruning (.jobs ["nsX/jX: Complete"]) "nsX" "false" (fun _ _ => true))
        = (["nsX/jX: Complete"] : List String).length) :=
  ⟨by decide,
    metrics_increment_amended (fun _ _ => true) "nsX" "false"
      [⟨"nsX", "pX", "Error"⟩] ["nsX/jX: Complete"] (by decide)⟩

/-- C10: `GetJobs` reads only the condition type strings (besides
namespace and name): two job listings that differ only in the status
values of their conditions produce identical descriptor lists. -/
theorem getJobs_ignores_condition_status (jobEnv : Option String) (d₁ d₂ : Nat)
    (b₁ b₂ : Bool) (js₁ js₂ : List Job)
    (h : List.Forall₂ JobSameButCondStatus js₁ js₂) :
    getJobs jobEnv [(d₁, .page js₁ b₁)] = getJobs jobEnv [(d₂, .page js₂ b₂)] := by
  simp only [getJobs]
  congr 1
  induction h with
  | nil => rfl
  | cons hj _ ihj =>
    simp only [List.flatMap_cons, ihj]
    rw [jobMatches_congr _ _ _ hj]

theorem getJobs_ignores_condition_status_witness :
    List.Forall₂ JobSameButCondStatus
        [⟨"nsY", "jY", ⟨[⟨"Complete", "True"⟩]⟩⟩] [⟨"nsY", "jY", ⟨[⟨"Complete", "False"⟩]⟩⟩]
    ∧ getJobs none [(0, .page [⟨"nsY", "jY", ⟨[⟨"Complete", "True"⟩]⟩⟩] false)]
        = getJobs none [(0, .page [⟨"nsY", "jY", ⟨[⟨"Complete", "False"⟩]⟩⟩] false)]
    ∧ getJobs none [(0, .page [⟨"nsY", "jY", ⟨[⟨"Complete", "False"⟩]⟩⟩] false)]
      = .ok ["nsY/jY: Complete"] := by
  have hforall : List.Forall₂ JobSameButCondStatus
      [⟨"nsY", "jY", ⟨[⟨"Complete", "True"⟩]⟩⟩]
      [⟨"nsY", "jY", ⟨[⟨"Complete", "False"⟩]⟩⟩] :=
    List.Forall₂.cons ⟨rfl, rfl, List.Forall₂.cons rfl List.Forall₂.nil⟩ List.Forall₂.nil
  exact ⟨hforall, getJobs_ignores_condition_status none 0 0 false false _ _ hforall, rfl⟩

end PodPruner
